import Mathlib

/-!
Verification of vite-plugin-electron (src/index.ts).

This file gives a shallow embedding of the stateful core of the plugin:

* the entry completion barrier of the serve-mode plugin
  (the shared `closeBundleCount` counter and the `closeBundle` hook,
  src/index.ts lines 60-86);
* the process lifecycle controller (`startup`, `startup.exit`,
  `startup.hookedProcessExit`, src/index.ts lines 118-170);
* the build-mode `config` hook (src/index.ts lines 97-101).

Stateful JS is embedded as explicit state passing:
`ElectronState` carries the process-wide mutable globals
(`process.electronApp`, `startup.hookedProcessExit`, the console log) plus
the fixed environment fact of whether the optional `tree-kill` module can
be imported.  Operations return the new state together with a trace of the
externally observable events they perform (listener removal, kill signals,
spawns, exit-hook installation), so that ordering claims can be stated as
facts about the returned event list.
-/

/-- Listener registered on the child process handle.  The source registers
exactly one: `process.electronApp.once(exit, process.exit)`
(src/index.ts line 130), which propagates the exit code of the child to
the host process. -/
inductive Listener where
  | propagateExit
deriving DecidableEq, Repr

/-- Model of a spawned child process handle (the value of
`process.electronApp`).  The pid is the native identifier, `alive` the
liveness flag, `listeners` the currently registered listeners. -/
structure ChildProcess where
  pid : Nat
  argv : List String
  alive : Bool
  listeners : List Listener
deriving DecidableEq, Repr

/-- Environment fact about the optional `tree-kill` dependency: the dynamic
`import(tree-kill)` either resolves (and the kill callback is then
invoked with an optional error value), or rejects with
`ERR_MODULE_NOT_FOUND`, or rejects with some other import error. -/
inductive TreeKillEnv where
  | available (killErr : Option String)
  | moduleNotFound
  | importFailure (e : String)
deriving DecidableEq, Repr

/-- Console output lines produced by `startup.exit`: the advisory
recommending the installation of `tree-kill` (src/index.ts lines 158-161),
or the `console.error(e)` line for other import errors (line 163). -/
inductive LogLine where
  | advisory
  | errorLine (e : String)
deriving DecidableEq, Repr

/-- Outcome of a JS promise: resolved with a value, or rejected. -/
inductive PromiseOutcome (α : Type) where
  | resolved (v : α)
  | rejected (e : String)
deriving DecidableEq, Repr

/-- Externally observable events performed by the lifecycle operations. -/
inductive Event where
  | removeAllListeners (pid : Nat)
  | killTree (pid : Nat)
  | killDirect (pid : Nat)
  | spawn (pid : Nat)
  | installProcessExitHook
  | hookInvoked
  | wsFullReload
deriving DecidableEq, Repr

/-- Process-wide mutable state of the host process: the held child-process
handle (`process.electronApp`), the exit-hook latch
(`startup.hookedProcessExit`), a counter of how many times the host-exit
handler was installed, the next fresh pid the OS will hand out, the
console log, and the fixed `tree-kill` environment. -/
structure ElectronState where
  electronApp : Option ChildProcess
  hookedProcessExit : Bool
  processExitHookInstalls : Nat
  nextPid : Nat
  log : List LogLine
  treeKill : TreeKillEnv
deriving DecidableEq, Repr

/-- Initial host-process state: no child held, latch down, nothing logged. -/
def initState (env : TreeKillEnv) : ElectronState :=
  { electronApp := none
    hookedProcessExit := false
    processExitHookInstalls := 0
    nextPid := 0
    log := []
    treeKill := env }

/-- Result of `startup.exit`: the new state, the events performed, and the
outcome of the returned promise. -/
structure ExitResult where
  state : ElectronState
  events : List Event
  outcome : PromiseOutcome (Option String)
deriving DecidableEq, Repr

/-- Result of `startup`: the new state and the events performed. -/
structure StartupResult where
  state : ElectronState
  events : List Event
deriving DecidableEq, Repr

/-- Embedding of `startup.exit` (src/index.ts lines 142-170).
If no process is held it returns `Promise.resolve(null)` at once.
Otherwise it removes all listeners from the held handle, then tries the
loading of `tree-kill`: on success the process tree is killed with SIGKILL and
the promise is resolved with whatever the kill callback receives; if its
loading rejects with `ERR_MODULE_NOT_FOUND` the advisory is logged, the
handle is killed directly and the promise is resolved with the error; any
other import error is logged with `console.error` and handled the same
way.  The handle is never cleared from the state: the source never sets
`process.electronApp` back to undefined. -/
def startup.exit (s : ElectronState) : ExitResult :=
  match s.electronApp with
  | none => ⟨s, [], .resolved none⟩
  | some app =>
    let app := { app with listeners := [] }
    match s.treeKill with
    | .available killErr =>
        ⟨{ s with electronApp := some { app with alive := false } },
         [.removeAllListeners app.pid, .killTree app.pid],
         .resolved killErr⟩
    | .moduleNotFound =>
        ⟨{ s with electronApp := some { app with alive := false },
                  log := s.log ++ [.advisory] },
         [.removeAllListeners app.pid, .killDirect app.pid],
         .resolved (some "ERR_MODULE_NOT_FOUND")⟩
    | .importFailure e =>
        ⟨{ s with electronApp := some { app with alive := false },
                  log := s.log ++ [.errorLine e] },
         [.removeAllListeners app.pid, .killDirect app.pid],
         .resolved (some e)⟩

/-- Default argv of `startup` (src/index.ts line 118). -/
def defaultArgv : List String := [".", "--no-sandbox"]

/-- Embedding of `startup` (src/index.ts lines 118-140).
It awaits `startup.exit()`, then spawns Electron with the given argv
(mounting the fresh handle on `process.electronApp` with the one
`once(exit, process.exit)` listener), and finally, guarded by the
`startup.hookedProcessExit` latch, installs the host-process exit handler
at most once. -/
def startup (s : ElectronState) (argv : List String) : StartupResult :=
  let r := startup.exit s
  let s1 := r.state
  let pid := s1.nextPid
  let s2 := { s1 with
    electronApp := some ⟨pid, argv, true, [.propagateExit]⟩
    nextPid := pid + 1 }
  if s2.hookedProcessExit then
    ⟨s2, r.events ++ [.spawn pid]⟩
  else
    ⟨{ s2 with hookedProcessExit := true
               processExitHookInstalls := s2.processExitHookInstalls + 1 },
     r.events ++ [.spawn pid, .installProcessExitHook]⟩

/-- The child process terminates on its own with exit code `code`
(src/index.ts line 130).  If the `once(exit, process.exit)` listener is
still registered it fires once (and is removed, being a once-listener),
calling `process.exit(code)`: the second component is the exit code the
host process exits with, if any. -/
def childExit (s : ElectronState) (code : Nat) : ElectronState × Option Nat :=
  match s.electronApp with
  | none => (s, none)
  | some app =>
      if Listener.propagateExit ∈ app.listeners then
        let fired : ChildProcess :=
          ⟨app.pid, app.argv, false, app.listeners.erase .propagateExit⟩
        ({ s with electronApp := some fired }, some code)
      else
        ({ s with electronApp := some { app with alive := false } }, none)

/-- The reload capability handed to a user-supplied `onstart` is one of two
actions (src/index.ts lines 79-81). -/
inductive ReloadAction where
  | sendFullReload
  | doStartup
deriving DecidableEq, Repr

/-- Embedding of the ternary `process.electronApp ? () => server.ws.send(...)
: startup` (src/index.ts lines 79-81): the capability handed to `onstart`
is chosen by the truthiness of `process.electronApp` at the moment the
`closeBundle` hook builds the argument object. -/
def reloadCapability (s : ElectronState) : ReloadAction :=
  if s.electronApp.isSome then .sendFullReload else .doStartup

/-- Invoking a handed reload capability: `sendFullReload` performs
`server.ws.send` of a full-reload payload and leaves the process state
alone; `doStartup` runs the full `startup()` with the default argv. -/
def invokeReload (handed : ReloadAction) (s : ElectronState) :
    ElectronState × List Event :=
  match handed with
  | .sendFullReload => (s, [.wsFullReload])
  | .doStartup => ((startup s defaultArgv).state, (startup s defaultArgv).events)

/-- State of the entry completion barrier of the serve-mode plugin
(src/index.ts lines 60-74): the fixed entry count of the session, the
shared monotone `closeBundleCount`, and a ghost counter of how many times
the completion reaction (the user-supplied `onstart`, or the default
`startup()`) has been invoked. -/
structure BarrierState where
  entryCount : Nat
  closeBundleCount : Nat
  reactionInvocations : Nat
deriving DecidableEq, Repr

/-- Barrier state at the start of a dev-server session with `n` entries. -/
def configureBarrier (n : Nat) : BarrierState :=
  ⟨n, 0, 0⟩

/-- Embedding of one `closeBundle()` call of the `:startup` plugin
(src/index.ts lines 73-86): pre-increment the shared counter, return early
while it is still below the entry count, otherwise invoke the completion
reaction.  The counter is never reset. -/
def closeBundle (b : BarrierState) : BarrierState :=
  if b.closeBundleCount + 1 < b.entryCount then
    { b with closeBundleCount := b.closeBundleCount + 1 }
  else
    { b with closeBundleCount := b.closeBundleCount + 1
             reactionInvocations := b.reactionInvocations + 1 }

/-- Runs `k` consecutive `closeBundle()` calls. -/
def runCloseBundles (b : BarrierState) : Nat → BarrierState
  | 0 => b
  | k + 1 => runCloseBundles (closeBundle b) k

/-- Operations a session may perform on the process-wide state. -/
inductive Op where
  | start (argv : List String)
  | stop
  | childExits (code : Nat)
deriving DecidableEq, Repr

/-- Applies one operation to the process-wide state. -/
def applyOp (s : ElectronState) : Op → ElectronState
  | .start argv => (startup s argv).state
  | .stop => (startup.exit s).state
  | .childExits c => (childExit s c).1

/-- Runs a sequence of operations. -/
def runOps (s : ElectronState) : List Op → ElectronState
  | [] => s
  | op :: ops => runOps (applyOp s op) ops

/-- Embedding of the Vite user config as the build-mode `config` hook sees
it: the `base` field it may touch, and all remaining fields bundled
opaquely in `others`. -/
structure UserConfig (σ : Type) where
  base : Option String
  others : σ

/-- Embedding of the build-mode `config` hook (src/index.ts lines 97-101):
the nullish assignment of ./ to `config.base` sets `base` only when it is nullish, and the hook
captures `env.mode` into the module-level `mode` variable (the second
component). -/
def config {σ : Type} (c : UserConfig σ) (envMode : String) :
    UserConfig σ × String :=
  ({ c with base := match c.base with
                    | none => some "./"
                    | some b => some b },
   envMode)

/-- Tests whether an event is a termination signal (tree kill or direct
kill). -/
def isTermination : Event → Bool
  | .killTree _ => true
  | .killDirect _ => true
  | _ => false

/-- Tests whether an event is a termination signal aimed at pid `p`. -/
def killsPid : Event → Nat → Bool
  | .killTree q, p => q == p
  | .killDirect q, p => q == p
  | _, _ => false

/-- Number of advisory lines in a console log. -/
def countAdvisories (l : List LogLine) : Nat :=
  l.countP (fun x => decide (x = LogLine.advisory))

/-! Helper lemmas about the lifecycle operations. -/

/-- Fields of the state that `startup.exit` never changes: the next fresh
pid, the exit-hook latch, the installation counter and the environment. -/
lemma exit_state_fields (s : ElectronState) :
    (startup.exit s).state.nextPid = s.nextPid ∧
    (startup.exit s).state.hookedProcessExit = s.hookedProcessExit ∧
    (startup.exit s).state.processExitHookInstalls = s.processExitHookInstalls ∧
    (startup.exit s).state.treeKill = s.treeKill := by
  cases h : s.electronApp <;> cases ht : s.treeKill <;>
    simp [startup.exit, h, ht]

/-- After `startup.exit` on a held handle, the handle is still mounted but
dead and stripped of its listeners. -/
lemma exit_state_electronApp (s : ElectronState) (app : ChildProcess)
    (h : s.electronApp = some app) :
    (startup.exit s).state.electronApp
      = some ⟨app.pid, app.argv, false, []⟩ := by
  cases ht : s.treeKill <;> simp [startup.exit, h, ht]

/-- The events of `startup.exit` on a held handle: first the listener
removal, then exactly one termination signal aimed at the held pid. -/
lemma exit_events_spec (s : ElectronState) (app : ChildProcess)
    (h : s.electronApp = some app) :
    ∃ k, killsPid k app.pid = true ∧ isTermination k = true ∧
      (startup.exit s).events = [Event.removeAllListeners app.pid, k] := by
  cases ht : s.treeKill with
  | available killErr =>
      exact ⟨.killTree app.pid, by simp [killsPid], rfl,
        by simp [startup.exit, h, ht]⟩
  | moduleNotFound =>
      exact ⟨.killDirect app.pid, by simp [killsPid], rfl,
        by simp [startup.exit, h, ht]⟩
  | importFailure e =>
      exact ⟨.killDirect app.pid, by simp [killsPid], rfl,
        by simp [startup.exit, h, ht]⟩

/-- The event trace of `startup.exit` never contains a hook invocation. -/
lemma exit_events_no_hook (s : ElectronState) :
    Event.hookInvoked ∉ (startup.exit s).events := by
  cases h : s.electronApp with
  | none => simp [startup.exit, h]
  | some app => cases ht : s.treeKill <;> simp [startup.exit, h, ht]

/-- The event trace of `startup` decomposes as the teardown events of
`startup.exit`, then the spawn of the fresh pid, then (only when the latch
was still down) the installation of the host-exit hook. -/
lemma startup_events_eq (s : ElectronState) (argv : List String) :
    (startup s argv).events
      = (startup.exit s).events ++ Event.spawn s.nextPid ::
          (if s.hookedProcessExit then [] else [Event.installProcessExitHook]) := by
  obtain ⟨h1, h2, h3, h4⟩ := exit_state_fields s
  by_cases hb : s.hookedProcessExit <;>
    simp [startup, h1, h2, hb]

/-- The state after `startup`: the fresh handle is mounted live with the
exit-propagation listener, and the pid counter advanced. -/
lemma startup_state_core (s : ElectronState) (argv : List String) :
    (startup s argv).state.electronApp
        = some ⟨s.nextPid, argv, true, [.propagateExit]⟩ ∧
    (startup s argv).state.nextPid = s.nextPid + 1 ∧
    (startup s argv).state.treeKill = s.treeKill := by
  obtain ⟨h1, h2, h3, h4⟩ := exit_state_fields s
  by_cases hb : s.hookedProcessExit <;>
    simp [startup, h1, h2, h4, hb]

/-- Closed form for the reaction count of the barrier: starting from an
arbitrary counter value `c` and `i` prior invocations, running `k` more
`closeBundle()` calls invokes the reaction once for every call whose
pre-incremented counter value reaches `entryCount`. -/
lemma runCloseBundles_count (k : Nat) : ∀ n c i,
    (runCloseBundles ⟨n, c, i⟩ k).reactionInvocations
      = i + ((c + k + 1 - n) - (c + 1 - n)) := by
  induction k with
  | zero =>
      intro n c i
      simp only [runCloseBundles]
      omega
  | succ k ih =>
      intro n c i
      by_cases h : c + 1 < n
      · have : runCloseBundles ⟨n, c, i⟩ (k + 1)
            = runCloseBundles ⟨n, c + 1, i⟩ k := by
          simp [runCloseBundles, closeBundle, h]
        rw [this, ih]
        omega
      · have : runCloseBundles ⟨n, c, i⟩ (k + 1)
            = runCloseBundles ⟨n, c + 1, i + 1⟩ k := by
          simp [runCloseBundles, closeBundle, h]
        rw [this, ih]
        omega

/-- C1 (amended).  For a session configured with n >= 1 entries, the
completion reaction is invoked for the first time on the n-th
`closeBundle()` call and not before; but because the shared counter is
never reset, every call from the n-th one onward invokes the reaction, so
after k calls the reaction has run (k - (n - 1)) times (truncated at 0)
rather than once per full cohort of n completions. -/
theorem closeBundle_reaction_count (n k : Nat) (h : 1 ≤ n) :
    (runCloseBundles (configureBarrier n) k).reactionInvocations
      = k - (n - 1) := by
  have hc := runCloseBundles_count k n 0 0
  simp only [configureBarrier] at *
  rw [hc]
  omega

/-- Witness for C1 (amended) at n = 3, k = 3: the third call is the first
one that invokes the reaction. -/
theorem closeBundle_reaction_count_witness :
    1 ≤ 3 ∧
    (runCloseBundles (configureBarrier 3) 3).reactionInvocations
      = 3 - (3 - 1) :=
  ⟨by decide, closeBundle_reaction_count 3 3 (by decide)⟩

/-- Counterexample to C1 as stated: with 3 entries, two full cohorts of
completions (6 `closeBundle()` calls) invoke the reaction 4 times, not
exactly once per cohort (which would be 2): calls 3, 4, 5 and 6 all fire
because the shared counter is never reset. -/
theorem closeBundle_not_once_per_cohort :
    (runCloseBundles (configureBarrier 3) 6).reactionInvocations = 4 ∧
    (runCloseBundles (configureBarrier 3) 6).reactionInvocations ≠ 2 := by
  constructor <;> decide

/-- C2.  Whenever a prior child-process handle is held, the event trace of
the next `startup` call begins with the teardown of that handle — listener
removal followed by exactly one termination signal aimed at its pid — and
only then performs the spawn of the new process; nothing after the spawn
is a termination or another spawn.  Since the state holds at most one
handle by construction, at most one live instance exists at any
observation point. -/
theorem startup_one_termination_before_spawn (s : ElectronState)
    (argv : List String) (app : ChildProcess)
    (h : s.electronApp = some app) :
    ∃ k rest, killsPid k app.pid = true ∧
      (startup s argv).events
        = [Event.removeAllListeners app.pid, k, Event.spawn s.nextPid]
            ++ rest ∧
      ∀ e ∈ rest, isTermination e = false ∧ ∀ p, e ≠ Event.spawn p := by
  obtain ⟨k, hk, hkt, hev⟩ := exit_events_spec s app h
  refine ⟨k,
    if s.hookedProcessExit then [] else [Event.installProcessExitHook],
    hk, ?_, ?_⟩
  · rw [startup_events_eq, hev]
    by_cases hb : s.hookedProcessExit <;> simp [hb]
  · intro e he
    by_cases hb : s.hookedProcessExit <;> simp [hb] at he
    subst he
    exact ⟨rfl, fun p => by simp⟩

/-- Witness for C2: after one `startup` from the fresh state, a second
`startup` performs exactly one termination of the first process (pid 0)
before spawning the second (pid 1). -/
theorem startup_one_termination_before_spawn_witness :
    ∃ k rest, killsPid k 0 = true ∧
      (startup (startup (initState (.available none)) defaultArgv).state
          defaultArgv).events
        = [Event.removeAllListeners 0, k, Event.spawn 1] ++ rest ∧
      ∀ e ∈ rest, isTermination e = false ∧ ∀ p, e ≠ Event.spawn p :=
  startup_one_termination_before_spawn
    (startup (initState (.available none)) defaultArgv).state defaultArgv
    ⟨0, defaultArgv, true, [.propagateExit]⟩ rfl

/-- Example of a state holding a live child process (pid 5) with the
exit-propagation listener registered and the exit hook already latched. -/
def heldExample : ElectronState :=
  ⟨some ⟨5, [], true, [.propagateExit]⟩, true, 1, 6, [], .available none⟩

/-- C3.  `startup.exit` is idempotent: when no child process is held it is
a complete no-op that resolves immediately with null; when one is held, a
single call leaves the handle mounted but dead with no registered
listeners, and a second call leaves that handle component exactly as the
first call left it — so two consecutive stops after one start end with
the same handle state (no live process, no listeners) as a single stop. -/
theorem exit_idempotent (s : ElectronState) :
    (s.electronApp = none →
      startup.exit s = ⟨s, [], .resolved none⟩) ∧
    (startup.exit (startup.exit s).state).state.electronApp
      = (startup.exit s).state.electronApp ∧
    ∀ app, s.electronApp = some app →
      (startup.exit s).state.electronApp
        = some ⟨app.pid, app.argv, false, []⟩ := by
  refine ⟨?_, ?_, ?_⟩
  · intro h
    simp [startup.exit, h]
  · cases h : s.electronApp with
    | none => simp [startup.exit, h]
    | some app => cases ht : s.treeKill <;> simp [startup.exit, h, ht]
  · intro app h
    exact exit_state_electronApp s app h

/-- Witness for C3: the no-op branch at the fresh idle state, and the
handle state after stopping `heldExample`. -/
theorem exit_idempotent_witness :
    startup.exit (initState .moduleNotFound)
      = ⟨initState .moduleNotFound, [], .resolved none⟩ ∧
    (startup.exit heldExample).state.electronApp
      = some ⟨5, [], false, []⟩ :=
  ⟨(exit_idempotent (initState .moduleNotFound)).1 rfl,
   (exit_idempotent heldExample).2.2 ⟨5, [], true, [.propagateExit]⟩ rfl⟩

/-- One operation preserves the latch invariant: the installation counter
equals 1 when the latch is up and 0 when it is down. -/
lemma hookInv_applyOp (s : ElectronState)
    (h : s.processExitHookInstalls = if s.hookedProcessExit then 1 else 0) :
    ∀ op, (applyOp s op).processExitHookInstalls
      = if (applyOp s op).hookedProcessExit then 1 else 0 := by
  intro op
  cases op with
  | start argv =>
      obtain ⟨h1, h2, h3, h4⟩ := exit_state_fields s
      by_cases hb : s.hookedProcessExit <;>
        simp only [hb, if_true, if_false, Bool.false_eq_true] at h <;>
        simp [applyOp, startup, h2, h3, hb, h]
  | stop =>
      obtain ⟨h1, h2, h3, h4⟩ := exit_state_fields s
      rw [applyOp, h3, h2, h]
  | childExits c =>
      cases hc : s.electronApp with
      | none => simpa [applyOp, childExit, hc] using h
      | some app =>
          by_cases hl : Listener.propagateExit ∈ app.listeners <;>
            simpa [applyOp, childExit, hc, hl] using h

/-- C4.  Across any sequence of operations (any number of `start()` calls,
stops and child exits) from the fresh host-process state, the host-exit
handler is installed at most once, guarded by the boolean latch
`startup.hookedProcessExit`. -/
theorem exit_hook_installed_at_most_once (env : TreeKillEnv)
    (ops : List Op) :
    (runOps (initState env) ops).processExitHookInstalls ≤ 1 := by
  suffices h : ∀ ops s,
      (s.processExitHookInstalls = if s.hookedProcessExit then 1 else 0) →
      (runOps s ops).processExitHookInstalls
        = if (runOps s ops).hookedProcessExit then 1 else 0 by
    have hinit := h ops (initState env) (by simp [initState])
    rw [hinit]
    split <;> omega
  intro ops
  induction ops with
  | nil => intro s hs; exact hs
  | cons op ops ih =>
      intro s hs
      exact ih (applyOp s op) (hookInv_applyOp s hs op)

/-- Example of a state holding a live child process (pid 2) in a host
process where the tree-kill module cannot be imported. -/
def mnfHeld : ElectronState :=
  ⟨some ⟨2, [], true, [.propagateExit]⟩, true, 1, 3, [], .moduleNotFound⟩

/-- C5.  The promise returned by `startup.exit` is resolved in every case
and never rejected; and when the tree-kill capability is unavailable and a
handle is held, the call falls back to signaling the held process directly,
appends the advisory line to the console log, and a subsequent `startup`
still proceeds to spawn and mount a fresh live process. -/
theorem exit_always_resolves (s : ElectronState) :
    (∃ v, (startup.exit s).outcome = PromiseOutcome.resolved v) ∧
    ∀ app, s.electronApp = some app →
      s.treeKill = TreeKillEnv.moduleNotFound →
      Event.killDirect app.pid ∈ (startup.exit s).events ∧
      (startup.exit s).state.log = s.log ++ [LogLine.advisory] ∧
      (startup (startup.exit s).state defaultArgv).state.electronApp
        = some ⟨s.nextPid, defaultArgv, true, [Listener.propagateExit]⟩ := by
  constructor
  · cases h : s.electronApp with
    | none => exact ⟨none, by simp [startup.exit, h]⟩
    | some app =>
        cases ht : s.treeKill with
        | available killErr =>
            exact ⟨killErr, by simp [startup.exit, h, ht]⟩
        | moduleNotFound =>
            exact ⟨some ("ERR_MODULE_NOT_FOUND"),
              by simp [startup.exit, h, ht]⟩
        | importFailure e => exact ⟨some e, by simp [startup.exit, h, ht]⟩
  · intro app h ht
    refine ⟨by simp [startup.exit, h, ht], by simp [startup.exit, h, ht], ?_⟩
    rw [(startup_state_core (startup.exit s).state defaultArgv).1,
      (exit_state_fields s).1]

/-- Witness for C5 at the concrete held state `mnfHeld`: direct kill of
pid 2, advisory logged, and the next `startup` mounts a live pid 3. -/
theorem exit_always_resolves_witness :
    Event.killDirect 2 ∈ (startup.exit mnfHeld).events ∧
    (startup.exit mnfHeld).state.log = [] ++ [LogLine.advisory] ∧
    (startup (startup.exit mnfHeld).state defaultArgv).state.electronApp
      = some ⟨3, defaultArgv, true, [Listener.propagateExit]⟩ :=
  (exit_always_resolves mnfHeld).2 ⟨2, [], true, [.propagateExit]⟩ rfl rfl

/-- C6.  When the child process spawned by `startup` exits on its own with
code c, the registered once-listener `process.exit` makes the host process
exit with the same code c. -/
theorem child_exit_code_propagates (s : ElectronState)
    (argv : List String) (c : Nat) :
    (childExit (startup s argv).state c).2 = some c := by
  have h := (startup_state_core s argv).1
  simp [childExit, h]

/-- C7.  The reload capability the `closeBundle` hook hands to a
user-supplied `onstart` is chosen by whether `process.electronApp` holds a
handle at the moment the hook runs: with a handle held the capability is
the lightweight full-reload message to the connected clients (it changes
no process state); with no handle held the capability is the full
`startup`, which spawns a process and sends no full-reload message. -/
theorem reload_capability_branches (s : ElectronState) :
    (s.electronApp.isSome = true →
      reloadCapability s = ReloadAction.sendFullReload ∧
      invokeReload (reloadCapability s) s = (s, [Event.wsFullReload])) ∧
    (s.electronApp = none →
      reloadCapability s = ReloadAction.doStartup ∧
      (invokeReload (reloadCapability s) s).1 = (startup s defaultArgv).state ∧
      Event.spawn s.nextPid ∈ (invokeReload (reloadCapability s) s).2 ∧
      Event.wsFullReload ∉ (invokeReload (reloadCapability s) s).2) := by
  constructor
  · intro h
    refine ⟨by simp [reloadCapability, h], ?_⟩
    simp [reloadCapability, h, invokeReload]
  · intro h
    have hcap : reloadCapability s = ReloadAction.doStartup := by
      simp [reloadCapability, h]
    refine ⟨hcap, by rw [hcap]; rfl, ?_, ?_⟩
    · rw [hcap]
      simp only [invokeReload, startup_events_eq]
      simp [startup.exit, h]
    · rw [hcap]
      simp only [invokeReload, startup_events_eq]
      by_cases hb : s.hookedProcessExit <;> simp [startup.exit, h, hb]

/-- Witness for C7: the held branch at `heldExample` and the idle branch
at the fresh state. -/
theorem reload_capability_branches_witness :
    (reloadCapability heldExample = ReloadAction.sendFullReload ∧
      invokeReload (reloadCapability heldExample) heldExample
        = (heldExample, [Event.wsFullReload])) ∧
    (reloadCapability (initState (.available none)) = ReloadAction.doStartup ∧
      (invokeReload (reloadCapability (initState (.available none)))
          (initState (.available none))).1
        = (startup (initState (.available none)) defaultArgv).state ∧
      Event.spawn 0 ∈ (invokeReload
          (reloadCapability (initState (.available none)))
          (initState (.available none))).2 ∧
      Event.wsFullReload ∉ (invokeReload
          (reloadCapability (initState (.available none)))
          (initState (.available none))).2) :=
  ⟨(reload_capability_branches heldExample).1 rfl,
   (reload_capability_branches (initState (.available none))).2 rfl⟩

/-- Host state after one `startup` and two `startup.exit` calls in a host
process where the tree-kill module cannot be imported. -/
def twoStopsNoTreeKill : ElectronState :=
  (startup.exit (startup.exit
    (startup (initState .moduleNotFound) defaultArgv).state).state).state

/-- Counterexample to C8 as stated: with the tree-kill capability
unavailable, one start followed by two stops logs the advisory twice —
the source has no once-per-lifetime latch on the warning, and since the
dead handle is never cleared, every later stop takes the same logging
fallback path again. -/
theorem advisory_not_logged_once :
    countAdvisories twoStopsNoTreeKill.log = 2 ∧
    countAdvisories twoStopsNoTreeKill.log ≠ 1 := by
  constructor <;> decide

/-- C8 (amended).  Every `startup.exit` call that finds a held handle
while the tree-kill module is unavailable appends exactly one advisory
line to the console log and falls back to signaling the handle directly;
the advisory is per such call, not once per host-process lifetime. -/
theorem advisory_on_every_fallback_stop (s : ElectronState)
    (app : ChildProcess) (h : s.electronApp = some app)
    (ht : s.treeKill = TreeKillEnv.moduleNotFound) :
    (startup.exit s).state.log = s.log ++ [LogLine.advisory] ∧
    Event.killDirect app.pid ∈ (startup.exit s).events := by
  constructor <;> simp [startup.exit, h, ht]

/-- Witness for C8 (amended) at the concrete held state `mnfHeld`. -/
theorem advisory_on_every_fallback_stop_witness :
    (startup.exit mnfHeld).state.log = [] ++ [LogLine.advisory] ∧
    Event.killDirect 2 ∈ (startup.exit mnfHeld).events :=
  advisory_on_every_fallback_stop mnfHeld
    ⟨2, [], true, [.propagateExit]⟩ rfl rfl

/-- Counterexample to C9 as stated: `startup` takes only argv — there is
no beforeStartupHook parameter — so no hook invocation occurs in the event
trace of a `startup` call, here the second start of a session (a call with
a prior instance to tear down). -/
theorem no_hook_invoked_on_startup :
    Event.hookInvoked ∉
      (startup (startup (initState (.available none)) defaultArgv).state
        defaultArgv).events := by
  decide

/-- C9 (amended).  The source `startup(argv)` has no beforeStartupHook
parameter and invokes no pre-spawn hook at all; what does hold is the
ordering around the missing hook point: the teardown of any previous
instance (`startup.exit`) completes strictly before the new child process
is spawned. -/
theorem startup_no_hook_exit_before_spawn (s : ElectronState)
    (argv : List String) :
    Event.hookInvoked ∉ (startup s argv).events ∧
    ∃ rest, (startup s argv).events
      = (startup.exit s).events ++ Event.spawn s.nextPid :: rest := by
  constructor
  · rw [startup_events_eq]
    have hx := exit_events_no_hook s
    by_cases hb : s.hookedProcessExit <;> simp [hb, hx]
  · exact ⟨_, startup_events_eq s argv⟩

/-- C10.  In build mode the `config` hook sets `config.base` to ./ exactly
when the user left it undefined, never overwrites an already-set base,
leaves every other field of the user config unchanged, and captures the
environment mode. -/
theorem config_base_iff_undefined {σ : Type} (c : UserConfig σ)
    (m : String) :
    (c.base = none → (config c m).1.base = some ("./")) ∧
    (∀ b, c.base = some b → (config c m).1.base = some b) ∧
    (config c m).1.others = c.others ∧
    ((config c m).1.base ≠ c.base ↔ c.base = none) ∧
    (config c m).2 = m := by
  cases hb : c.base <;> simp [config, hb]

/-- Witness for C10: an undefined base becomes ./, a user-set base /x is
kept. -/
theorem config_base_iff_undefined_witness :
    (config (⟨none, 42⟩ : UserConfig Nat) ("production")).1.base
      = some ("./") ∧
    (config (⟨some ("/x"), 7⟩ : UserConfig Nat) ("production")).1.base
      = some ("/x") :=
  ⟨(config_base_iff_undefined ⟨none, 42⟩ ("production")).1 rfl,
   (config_base_iff_undefined ⟨some ("/x"), 7⟩ ("production")).2.1
     ("/x") rfl⟩
